import Mathlib

/-!
Verification of the PR-selection, time-travel checkout and comparison/diff
core of the auto-improvement system, as a shallow embedding in Lean 4.

Source files embedded here:
  * `auto_improvement/core.py` — orchestrator (`AutoImprovement._process_pr`,
    `AutoImprovement._select_prs`, `AutoImprovement.search_prs`,
    `AutoImprovement._load_analyzed_prs`, `AutoImprovement._save_analyzed_pr`).
  * `auto_improvement/git_manager.py` — `GitManager.get_file_content`,
    `GitManager.get_pr_solution`.
  * `auto_improvement/agent_clients/abstract_agent.py` —
    `AbstractAgentClient._create_solution_diff`.
  * `auto_improvement/version_control_clients/github_client.py` —
    `GitHubClient._matches_criteria`.
  * `auto_improvement/models.py` — `_convert_issue_tracker_client`,
    `IssueTrackerConfig.set_default_client` and the data model records.

Modelling conventions:
  * Python exceptions are modelled with `Except PyExc`; a Python function
    that can raise returns `Except PyExc α`, and raising propagates through
    the `Except` monad exactly as an uncaught exception propagates.
  * JSON documents (the persisted analyzed-PRs ledger) are modelled by the
    inductive `JVal`; a Python `set` is modelled as a duplicate-free `List`
    whose order is immaterial (only membership and cardinality are used).
  * External collaborators (the git working copy, the remote host, the
    issue tracker, the AI agent, `difflib.unified_diff`, `random.shuffle`)
    are parameters of the embedded functions, constrained only by the
    properties the source code itself relies on.
-/

/-- JSON values, as produced by `json.loads` in `core.py`. -/
inductive JVal where
  | null
  | jbool (b : Bool)
  | num (n : Int)
  | str (s : String)
  | arr (xs : List JVal)
  | obj (fields : List (String × JVal))
  deriving Repr

mutual

/-- Decidable equality for `JVal` (the automatic derivation does not handle
the nesting through `List`, so it is spelled out). -/
def JVal.deq : (a b : JVal) → Decidable (a = b)
  | .null, .null => isTrue rfl
  | .jbool a, .jbool b =>
      match Bool.decEq a b with
      | isTrue h => isTrue (h ▸ rfl)
      | isFalse h => isFalse (by intro hh; cases hh; exact h rfl)
  | .num a, .num b =>
      match Int.decEq a b with
      | isTrue h => isTrue (h ▸ rfl)
      | isFalse h => isFalse (by intro hh; cases hh; exact h rfl)
  | .str a, .str b =>
      match String.decEq a b with
      | isTrue h => isTrue (h ▸ rfl)
      | isFalse h => isFalse (by intro hh; cases hh; exact h rfl)
  | .arr a, .arr b =>
      match JVal.deqList a b with
      | isTrue h => isTrue (h ▸ rfl)
      | isFalse h => isFalse (by intro hh; cases hh; exact h rfl)
  | .obj a, .obj b =>
      match JVal.deqObj a b with
      | isTrue h => isTrue (h ▸ rfl)
      | isFalse h => isFalse (by intro hh; cases hh; exact h rfl)
  | .null, .jbool _ => isFalse (by intro h; cases h)
  | .null, .num _ => isFalse (by intro h; cases h)
  | .null, .str _ => isFalse (by intro h; cases h)
  | .null, .arr _ => isFalse (by intro h; cases h)
  | .null, .obj _ => isFalse (by intro h; cases h)
  | .jbool _, .null => isFalse (by intro h; cases h)
  | .jbool _, .num _ => isFalse (by intro h; cases h)
  | .jbool _, .str _ => isFalse (by intro h; cases h)
  | .jbool _, .arr _ => isFalse (by intro h; cases h)
  | .jbool _, .obj _ => isFalse (by intro h; cases h)
  | .num _, .null => isFalse (by intro h; cases h)
  | .num _, .jbool _ => isFalse (by intro h; cases h)
  | .num _, .str _ => isFalse (by intro h; cases h)
  | .num _, .arr _ => isFalse (by intro h; cases h)
  | .num _, .obj _ => isFalse (by intro h; cases h)
  | .str _, .null => isFalse (by intro h; cases h)
  | .str _, .jbool _ => isFalse (by intro h; cases h)
  | .str _, .num _ => isFalse (by intro h; cases h)
  | .str _, .arr _ => isFalse (by intro h; cases h)
  | .str _, .obj _ => isFalse (by intro h; cases h)
  | .arr _, .null => isFalse (by intro h; cases h)
  | .arr _, .jbool _ => isFalse (by intro h; cases h)
  | .arr _, .num _ => isFalse (by intro h; cases h)
  | .arr _, .str _ => isFalse (by intro h; cases h)
  | .arr _, .obj _ => isFalse (by intro h; cases h)
  | .obj _, .null => isFalse (by intro h; cases h)
  | .obj _, .jbool _ => isFalse (by intro h; cases h)
  | .obj _, .num _ => isFalse (by intro h; cases h)
  | .obj _, .str _ => isFalse (by intro h; cases h)
  | .obj _, .arr _ => isFalse (by intro h; cases h)

/-- Decidable equality for lists of `JVal`. -/
def JVal.deqList : (a b : List JVal) → Decidable (a = b)
  | [], [] => isTrue rfl
  | [], _ :: _ => isFalse (by intro h; cases h)
  | _ :: _, [] => isFalse (by intro h; cases h)
  | x :: xs, y :: ys =>
      match JVal.deq x y with
      | isTrue h1 =>
        match JVal.deqList xs ys with
        | isTrue h2 => isTrue (h1 ▸ h2 ▸ rfl)
        | isFalse h2 => isFalse (by intro hh; cases hh; exact h2 rfl)
      | isFalse h1 => isFalse (by intro hh; cases hh; exact h1 rfl)

/-- Decidable equality for JSON object field lists. -/
def JVal.deqObj : (a b : List (String × JVal)) → Decidable (a = b)
  | [], [] => isTrue rfl
  | [], _ :: _ => isFalse (by intro h; cases h)
  | _ :: _, [] => isFalse (by intro h; cases h)
  | (k, v) :: xs, (k2, v2) :: ys =>
      match String.decEq k k2 with
      | isTrue hk =>
        match JVal.deq v v2 with
        | isTrue h1 =>
          match JVal.deqObj xs ys with
          | isTrue h2 => isTrue (by subst hk; subst h1; subst h2; rfl)
          | isFalse h2 => isFalse (by intro hh; cases hh; exact h2 rfl)
        | isFalse h1 => isFalse (by intro hh; cases hh; exact h1 rfl)
      | isFalse hk => isFalse (by intro hh; cases hh; exact hk rfl)

end

instance : DecidableEq JVal := JVal.deq

deriving instance DecidableEq for Except

/-- Python exceptions that the embedded code can raise or propagate. -/
inductive PyExc where
  | attributeError
  | typeError
  | runtimeError (msg : String)
  | gitCommandError
  deriving DecidableEq, Repr

/-- The on-disk state of the analyzed-PRs ledger file
(`.analyzed_prs.json` in the learning directory): it is either missing,
present with text that `json.loads` rejects, or present and parsed to a
JSON value. -/
inductive LedgerFile where
  | missing
  | unparsable
  | parsed (j : JVal)
  deriving DecidableEq, Repr

/-- Python's `dict.get(key)` on a string-keyed dict represented as an
association list with unique keys: the value at the first matching key. -/
def pyDictGet {α : Type} (d : List (String × α)) (key : String) : Option α :=
  match d with
  | [] => none
  | (k, v) :: rest => if k = key then some v else pyDictGet rest key

/-- `dict.get` on a parsed JSON object.  `json.loads` keeps the last
occurrence of a duplicated key, hence the reversed lookup. -/
def jsonObjGet (fields : List (String × JVal)) (key : String) : Option JVal :=
  pyDictGet fields.reverse key

/-- Whether a JSON value is hashable as a Python value (lists and dicts
are not, so `set(...)` over them raises `TypeError`). -/
def pyHashable : JVal → Bool
  | .arr _ => false
  | .obj _ => false
  | _ => true

/-- Python's `set(value)` on a decoded JSON value, with the resulting set
represented as a duplicate-free list (iteration order of a Python set is
immaterial here; only membership and cardinality are ever used).
Iterating a JSON array yields its elements, a string its one-character
substrings, an object its keys; `null`, booleans and numbers are not
iterable and raise `TypeError`. -/
def pySet : JVal → Except PyExc (List JVal)
  | .arr xs => if xs.all pyHashable then .ok xs.dedup else .error .typeError
  | .str s => .ok ((s.data.map (fun c => JVal.str (String.singleton c))).dedup)
  | .obj fields => .ok ((fields.map (fun kv => JVal.str kv.1)).dedup)
  | _ => .error .typeError

/-- `AutoImprovement._load_analyzed_prs` (`core.py`): load the set of
already analyzed PR numbers.  A missing file yields the empty set; a file
whose text fails JSON decoding yields the empty set (`json.JSONDecodeError`
is caught; the `KeyError` arm of the same handler is unreachable because
`dict.get` is used).  A parsed document that is not a JSON object makes
`data.get(...)` raise `AttributeError`, which the handler does not catch. -/
def loadAnalyzedPrs : LedgerFile → Except PyExc (List JVal)
  | .missing => .ok []
  | .unparsable => .ok []
  | .parsed j =>
      match j with
      | .obj fields => pySet ((jsonObjGet fields "analyzed_prs").getD (JVal.arr []))
      | _ => .error .attributeError

/-- Python's `x in someSet` for the list-represented set. -/
def pySetMem (s : List JVal) (x : JVal) : Bool := s.contains x

/-- Python's `someSet.add(x)` for the list-represented set. -/
def pySetAdd (s : List JVal) (x : JVal) : List JVal :=
  if x ∈ s then s else s ++ [x]

/-- Lexicographic code-point order on character lists, as Python compares
strings. -/
def charListLe : List Char → List Char → Bool
  | [], _ => true
  | _ :: _, [] => false
  | a :: as, b :: bs =>
      if a.toNat < b.toNat then true
      else if b.toNat < a.toNat then false
      else charListLe as bs

/-- Comparison used by Python's `sorted` on two JSON scalars of the same
kind (integers by value, strings lexicographically by code point). -/
def jvalLe (a b : JVal) : Bool :=
  match a, b with
  | .num x, .num y => x ≤ y
  | .str x, .str y => charListLe x.data y.data
  | _, _ => true

/-- Whether a JSON value is an integer. -/
def jvalIsNum : JVal → Bool
  | .num _ => true
  | _ => false

/-- Whether a JSON value is a string. -/
def jvalIsStr : JVal → Bool
  | .str _ => true
  | _ => false

/-- Python's `sorted` on a set of decoded JSON values, for the homogeneous
element kinds that can reach it here: all integers or all strings sort
(stably); a mixed or non-scalar population raises `TypeError`
(unorderable types). -/
def pySorted (s : List JVal) : Except PyExc (List JVal) :=
  if s.all jvalIsNum then .ok (s.insertionSort (fun a b => jvalLe a b))
  else if s.all jvalIsStr then .ok (s.insertionSort (fun a b => jvalLe a b))
  else .error .typeError

/-- `AutoImprovement._save_analyzed_pr` (`core.py`): load the current set,
add `pr_number`, and rewrite the ledger as a JSON object holding the
sorted id array plus a fresh `last_updated` timestamp (the timestamp text
is a parameter here). -/
def saveAnalyzedPr (st : LedgerFile) (pr_number : Int) (timestampText : String) :
    Except PyExc LedgerFile := do
  let analyzed ← loadAnalyzedPrs st
  let analyzed := pySetAdd analyzed (.num pr_number)
  let sortedIds ← pySorted analyzed
  .ok (.parsed (.obj
    [("analyzed_prs", .arr sortedIds), ("last_updated", .str timestampText)]))

/-- `models.IssueInfo`: a normalized linked-issue reference. -/
structure IssueInfo where
  id : String
  title : String
  description : String
  url : String
  labels : List String := []
  deriving DecidableEq, Repr

/-- `models.FileChange`: one file's delta within a PR. -/
structure FileChange where
  filename : String
  status : String
  additions : Int
  deletions : Int
  changes : Int
  patch : Option String := none
  previous_filename : Option String := none
  deriving DecidableEq, Repr

/-- `models.PRInfo`: a merged pull request.  The `merged_at` timestamp is
kept as its ISO-8601 text. -/
structure PRInfo where
  number : Int
  title : String
  description : String
  author : String
  merged_at : String
  merge_commit_sha : String
  base_commit_sha : String
  head_commit_sha : String
  files_changed : List FileChange
  labels : List String := []
  linked_issue : Option IssueInfo := none
  url : String
  deriving DecidableEq, Repr

/-- `models.Solution`: a mapping from repository-relative path to full file
text, plus description and optional reasoning.  The `files` dict is
represented as its association list in insertion order (keys are unique
whenever the list was built by dict insertion). -/
structure Solution where
  files : List (String × String)
  description : String
  reasoning : Option String := none
  deriving DecidableEq, Repr

/-- `models.PRSelectionCriteria` with its source defaults. -/
structure PRSelectionCriteria where
  merged : Bool := true
  has_linked_issue : Bool := true
  min_files_changed : Int := 1
  max_files_changed : Int := 20
  exclude_labels : List String := []
  include_labels : List String := []
  days_back : Int := 365
  deriving DecidableEq, Repr

/-- `GitHubClient._matches_criteria` (`github_client.py`): check a fetched
PR against the selection criteria, in source order — linked issue, file
count against the inclusive `[min, max]` window, excluded labels, required
labels. -/
def matchesCriteria (pr : PRInfo) (criteria : PRSelectionCriteria) : Bool :=
  if criteria.has_linked_issue ∧ pr.linked_issue = none then false
  else if (pr.files_changed.length : Int) < criteria.min_files_changed ∨
      (pr.files_changed.length : Int) > criteria.max_files_changed then false
  else if criteria.exclude_labels ≠ [] ∧
      criteria.exclude_labels.any (fun label => pr.labels.contains label) then false
  else if criteria.include_labels ≠ [] ∧
      ¬ (criteria.include_labels.any (fun label => pr.labels.contains label) = true) then false
  else true

/-- Python's `d[k] = v` on a dict represented as an association list:
replace the value at the first occurrence of `k`, else append `(k, v)`. -/
def dictInsert (d : List (String × String)) (k : String) (v : String) :
    List (String × String) :=
  match d with
  | [] => [(k, v)]
  | (k2, v2) :: rest =>
      if k2 = k then (k, v) :: rest else (k2, v2) :: dictInsert rest k v

/-- `GitManager.get_file_content` (`git_manager.py`) in its
`commit = None` form, which reads the current working copy from disk:
the state of the working copy is the parameter `workingCopy`, sending a
path to its text when the file exists and to `none` otherwise. -/
def getFileContent (workingCopy : String → Option String) (filePath : String) :
    Option String :=
  workingCopy filePath

/-- The loop body of `GitManager.get_pr_solution` (`git_manager.py`) for
one file change: collect the file when it is listed as added or modified.
The source guards the insertion with `if content:`, which is false both
for a missing file (`None`) and for a present file whose text is empty. -/
def collectChangedFile (workingCopy : String → Option String)
    (files : List (String × String)) (fileChange : FileChange) :
    List (String × String) :=
  if fileChange.status = "added" ∨ fileChange.status = "modified" then
    match getFileContent workingCopy fileChange.filename with
    | some content =>
        if content ≠ "" then dictInsert files fileChange.filename content else files
    | none => files
  else files

/-- `GitManager.get_pr_solution` (`git_manager.py`): after checking out the
PR's merge commit (so `workingCopy` is the working-copy state at
`pr.merge_commit_sha`), fold the loop body over the PR's file-change list
starting from an empty dict, and package the result with the PR
description and the source's reasoning text. -/
def getPrSolution (workingCopy : String → Option String) (pr : PRInfo) : Solution :=
  let files := pr.files_changed.foldl (collectChangedFile workingCopy) []
  { files := files
    description := pr.description
    reasoning := some ("Developer solution from PR #" ++ toString pr.number) }

/-- The value that `get_pr_solution`'s `if content:` guard lets through for
a path: the working-copy content when the file exists with non-empty text,
and nothing otherwise.  (A specification-side helper used to state what
the fold computes; not itself a source function.) -/
def prTruthyContent (workingCopy : String → Option String) (filePath : String) :
    Option String :=
  match workingCopy filePath with
  | some content => if content ≠ "" then some content else none
  | none => none

/-- One per-file record of the comparison report built by
`AbstractAgentClient._create_solution_diff`: the file is reported
identical, or with a rendered unified-diff text, or — when the contents
differ but the rendered diff is empty — with the explicit
"minor differences, possibly whitespace" marker. -/
inductive FileDiffEntry where
  | identical
  | patch (text : String)
  | minorDifferences
  deriving DecidableEq, Repr

/-- Sort a list of filenames as Python's `sorted` does (lexicographic by
code point, stable). -/
def sortFilenames (l : List String) : List String :=
  l.insertionSort (fun a b => charListLe a.data b.data)

/-- The loop body of `AbstractAgentClient._create_solution_diff` for one
filename.  `difflib.unified_diff` (joined to a single string, with the
source's default of 5 context lines and its from/to labels) is abstracted
as the parameter `udiff`, applied as the source does: agent content first,
developer content second. -/
def solutionFileDiff (udiff : String → String → String)
    (developerSolution agentSolution : Solution) (filename : String) : FileDiffEntry :=
  let devContent := (pyDictGet developerSolution.files filename).getD ""
  let agentContent := (pyDictGet agentSolution.files filename).getD ""
  if devContent = agentContent then .identical
  else
    let diffText := udiff agentContent devContent
    if diffText ≠ "" then .patch diffText else .minorDifferences

/-- `AbstractAgentClient._create_solution_diff` (`abstract_agent.py`):
iterate over `sorted(set(dev.keys) | set(agent.keys))` and record one
entry per filename.  The entry list is the structural content of the
`parts` list the source accumulates (one appended part per filename). -/
def createSolutionDiff (udiff : String → String → String)
    (developerSolution agentSolution : Solution) :
    List (String × FileDiffEntry) :=
  let allFiles := sortFilenames
    ((developerSolution.files.map Prod.fst ++ agentSolution.files.map Prod.fst).dedup)
  allFiles.map (fun filename =>
    (filename, solutionFileDiff udiff developerSolution agentSolution filename))

/-- `AutoImprovement.search_prs` (`core.py`): fetch
`limit + len(analyzed_prs) + 10 + offset` merged PRs from the host
(`get_merged_prs`, an external collaborator, here the parameter
`getMergedPrs` indexed by its fetch limit), then keep each PR that is not
already analyzed and that has a linked issue — either already attached or
recovered from the PR text by the issue tracker (the parameter
`extractIssue`, modelling `_extract_issue_id_from_pr`). -/
def searchPrs (getMergedPrs : Nat → List PRInfo)
    (extractIssue : PRInfo → Option IssueInfo)
    (limit : Nat) (analyzed_prs : List Int) (offset : Nat := 0) : List PRInfo :=
  let fetchLimit := limit + analyzed_prs.length + 10 + offset
  let prs := getMergedPrs fetchLimit
  prs.filterMap (fun pr =>
    if pr.number ∈ analyzed_prs then none
    else
      match pr.linked_issue with
      | some _ => some pr
      | none =>
          match extractIssue pr with
          | some issue_info => some { pr with linked_issue := some issue_info }
          | none => none)

/-- `AutoImprovement._select_prs` (`core.py`): search with the loaded
analyzed set, shuffle (`random.shuffle`, the parameter `shuffle`; the
source shuffles in place) and truncate to `limit`. -/
def selectPrs (getMergedPrs : Nat → List PRInfo)
    (extractIssue : PRInfo → Option IssueInfo)
    (shuffle : List PRInfo → List PRInfo)
    (limit : Nat) (analyzed_prs : List Int) : List PRInfo :=
  let enriched_prs := searchPrs getMergedPrs extractIssue limit analyzed_prs
  (shuffle enriched_prs).take limit

/-- `models.ImprovementSession` restricted to the fields the orchestrator
logic touches (`best_score`, `key_insights`, `files_updated` and the
creation timestamp are reporting-only floats/lists/wall-clock values that
no processing step reads). -/
structure SessionRec where
  pr_info : PRInfo
  attempts : Nat
  success : Bool
  claude_solution : Option Solution := none
  developer_solution : Option Solution := none
  deriving DecidableEq, Repr

/-- The external steps invoked by `AutoImprovement._process_pr`, each able
to raise: the pre-PR checkout plus clean (`_time_travel_before_pr`), the
agent call (`_generate_solution`, indexed by the attempt number so a model
run can distinguish attempts), the ground-truth extraction
(`git_manager.get_pr_solution`, effectful because it checks out the merge
commit), and the learning analysis (`_analyze_and_learn`). -/
structure OrchestratorSteps where
  timeTravelBeforePr : PRInfo → Except PyExc Unit
  generateSolution : Nat → PRInfo → Except PyExc Solution
  getPrSolutionStep : PRInfo → Except PyExc Solution
  analyzeAndLearn : Solution → Solution → PRInfo → Except PyExc Unit

/-- The attempt loop of `AutoImprovement._process_pr`
(`for attempt in range(1, max_attempts_per_pr + 1)`).  The body runs its
steps in source order and, when they all return, sets `success = True`,
persists the PR number to the ledger and executes `break` — so the tail of
the attempt list is never visited on the success path, and a raising step
propagates out of the whole loop through the `Except` monad (the source
has no `try` around any step). -/
def processPrLoop (steps : OrchestratorSteps) (pr : PRInfo) (timestampText : String) :
    List Nat → SessionRec → LedgerFile → Except PyExc (SessionRec × LedgerFile)
  | [], session, st => .ok (session, st)
  | attempt :: _, session, st => do
      let session := { session with attempts := attempt }
      _ ← steps.timeTravelBeforePr pr
      let claude_solution ← steps.generateSolution attempt pr
      let session := { session with claude_solution := some claude_solution }
      let developer_solution ← steps.getPrSolutionStep pr
      let session := { session with developer_solution := some developer_solution }
      _ ← steps.analyzeAndLearn developer_solution claude_solution pr
      let session := { session with success := true }
      let st ← saveAnalyzedPr st pr.number timestampText
      .ok (session, st)

/-- `AutoImprovement._process_pr` (`core.py`): build the session record
(`attempts = 0`, `success = False`) and run the attempt loop over
`range(1, max_attempts_per_pr + 1)`. -/
def processPr (steps : OrchestratorSteps) (max_attempts_per_pr : Nat)
    (timestampText : String) (pr : PRInfo) (st : LedgerFile) :
    Except PyExc (SessionRec × LedgerFile) :=
  let session : SessionRec := { pr_info := pr, attempts := 0, success := false }
  processPrLoop steps pr timestampText (List.range' 1 max_attempts_per_pr) session st

/-- `models.ImprovementRun` restricted to the session list and counters
(`average_score`, `total_learnings` and the wall-clock timestamps are
reporting-only). -/
structure RunRec where
  sessions : List SessionRec := []
  total_prs : Nat := 0
  successful_prs : Nat := 0
  deriving DecidableEq, Repr

/-- The per-PR loop of `AutoImprovement.run_improvement_cycle` (step 4):
process each selected PR, append its session to the run and update the
counters.  An exception raised while processing a PR propagates out of the
loop (the source has no `try` around `_process_pr`), abandoning the run
record built so far. -/
def runImprovementCycleLoop (steps : OrchestratorSteps) (max_attempts_per_pr : Nat)
    (timestampText : String) :
    List PRInfo → RunRec → LedgerFile → Except PyExc (RunRec × LedgerFile)
  | [], run, st => .ok (run, st)
  | pr :: rest, run, st => do
      let (session, st) ← processPr steps max_attempts_per_pr timestampText pr st
      let run := { run with
        sessions := run.sessions ++ [session]
        total_prs := run.total_prs + 1
        successful_prs := run.successful_prs + (if session.success then 1 else 0) }
      runImprovementCycleLoop steps max_attempts_per_pr timestampText rest run st

/-- The issue-tracker client classes the configuration can name
(`models.py` maps each known tag to the corresponding class). -/
inductive IssueTrackerClientClass where
  | githubIssuesClient
  | jiraClient
  | tracClient
  deriving DecidableEq, Repr

/-- The raw value supplied for `IssueTrackerConfig.client`
(`type[AbstractIssueTrackerClient] | str | None`). -/
inductive IssueTrackerClientSpec where
  | clientClass (c : IssueTrackerClientClass)
  | tag (s : String)
  | nullValue
  deriving DecidableEq, Repr

/-- Python's `str.lower()` restricted to the ASCII letters that the
configuration tags use. -/
def pyLower (s : String) : String :=
  String.mk (s.data.map (fun c =>
    if 65 ≤ c.toNat ∧ c.toNat ≤ 90 then Char.ofNat (c.toNat + 32) else c))

/-- `models._convert_issue_tracker_client`: `None` stays `None`; a string
is lowercased and looked up in the tag mapping, an unknown string
returning `None`; a class value passes through. -/
def convertIssueTrackerClient : IssueTrackerClientSpec → Option IssueTrackerClientClass
  | .nullValue => none
  | .tag s =>
      let k := pyLower s
      if k = "github_issues" then some .githubIssuesClient
      else if k = "jira" then some .jiraClient
      else if k = "trac" then some .tracClient
      else none
  | .clientClass c => some c

/-- `models.IssueTrackerConfig` restricted to its client field (the `url`,
`ticket_pattern` and `auth` fields play no part in client validation). -/
structure IssueTrackerConfig where
  client : Option IssueTrackerClientClass
  deriving DecidableEq, Repr

/-- `IssueTrackerConfig.set_default_client` (the `model_validator` that
runs after field conversion): substitute `GitHubIssuesClient` when no
client is set. -/
def setDefaultClient (config : IssueTrackerConfig) : IssueTrackerConfig :=
  match config.client with
  | none => { config with client := some .githubIssuesClient }
  | some _ => config

/-- Constructing an `IssueTrackerConfig` from a raw client value: pydantic
runs the `BeforeValidator` conversion on the field, then the
`model_validator(mode = "after")`.  Neither stage can raise. -/
def mkIssueTrackerConfig (clientValue : IssueTrackerClientSpec) : IssueTrackerConfig :=
  setDefaultClient { client := convertIssueTrackerClient clientValue }

/-- A concrete stand-in for the joined output of `difflib.unified_diff`
used when evaluating the comparison engine on concrete inputs: empty for
equal inputs, a fixed non-empty rendering otherwise.  (The engine itself
is verified for an arbitrary `udiff`.) -/
def exampleUdiff : String → String → String :=
  fun agentText devText =>
    if agentText = devText then "" else "--- agent\n+++ developer\n"

/-- A concrete linked issue. -/
def exampleIssue : IssueInfo :=
  { id := "123", title := "Crash on empty input", description := "steps",
    url := "https://example.org/issues/123" }

/-- A concrete PR with exactly one changed file and a linked issue. -/
def examplePrOneFile : PRInfo :=
  { number := 101, title := "Fix crash", description := "Fixes #123",
    author := "dev", merged_at := "2024-01-01T00:00:00+00:00",
    merge_commit_sha := "m1", base_commit_sha := "b1", head_commit_sha := "h1",
    files_changed := [{ filename := "a.py", status := "modified",
                        additions := 1, deletions := 1, changes := 2 }],
    linked_issue := some exampleIssue,
    url := "https://example.org/pull/101" }

/-- A concrete PR with exactly two changed files and a linked issue. -/
def examplePrTwoFiles : PRInfo :=
  { number := 102, title := "Refactor", description := "Fixes #123",
    author := "dev", merged_at := "2024-01-02T00:00:00+00:00",
    merge_commit_sha := "m2", base_commit_sha := "b2", head_commit_sha := "h2",
    files_changed := [{ filename := "a.py", status := "modified",
                        additions := 1, deletions := 1, changes := 2 },
                      { filename := "b.py", status := "added",
                        additions := 3, deletions := 0, changes := 3 }],
    linked_issue := some exampleIssue,
    url := "https://example.org/pull/102" }

/-- A concrete PR with number 5 (used as an already-analyzed id). -/
def examplePrFive : PRInfo :=
  { number := 5, title := "Old fix", description := "Fixes #123",
    author := "dev", merged_at := "2023-06-01T00:00:00+00:00",
    merge_commit_sha := "m5", base_commit_sha := "b5", head_commit_sha := "h5",
    files_changed := [],
    linked_issue := some exampleIssue,
    url := "https://example.org/pull/5" }

/-- The selection criteria of the spec's concrete scenario:
`min_files_changed = 2`, `max_files_changed = 5`. -/
def exampleCriteria : PRSelectionCriteria :=
  { min_files_changed := 2, max_files_changed := 5 }

/-- A concrete developer Solution. -/
def exampleSolution : Solution :=
  { files := [("a.py", "x=1\n")], description := "developer fix" }

/-- A concrete agent Solution touching the same file with different text. -/
def exampleAgentSolution : Solution :=
  { files := [("a.py", "x=2\n")], description := "agent fix" }

/-- A concrete agent Solution touching a different file. -/
def exampleAgentDisjoint : Solution :=
  { files := [("b.py", "y=2\n")], description := "agent fix" }

/-- A Solution holding one file whose content is the empty string. -/
def exampleEmptyContentSolution : Solution :=
  { files := [("a.py", "")], description := "empty file" }

/-- A Solution with no files at all. -/
def exampleEmptySolution : Solution :=
  { files := [], description := "nothing" }

/-- A PR listing `a.py` as added. -/
def examplePrAdded : PRInfo :=
  { number := 7, title := "Add module", description := "Fixes #123",
    author := "dev", merged_at := "2024-02-01T00:00:00+00:00",
    merge_commit_sha := "m7", base_commit_sha := "b7", head_commit_sha := "h7",
    files_changed := [{ filename := "a.py", status := "added",
                        additions := 0, deletions := 0, changes := 0 }],
    linked_issue := some exampleIssue,
    url := "https://example.org/pull/7" }

/-- A working copy (at the merge commit) where `a.py` exists with empty
content. -/
def exampleWcEmptyFile : String → Option String :=
  fun p => if p = "a.py" then some "" else none

/-- A working copy (at the merge commit) where `a.py` exists with content
`"x=2"`. -/
def exampleWc : String → Option String :=
  fun p => if p = "a.py" then some "x=2" else none

/-- Orchestrator steps whose agent call raises on attempt 1 (the
`RuntimeError` that `ClaudeClient.generate_solution` raises on a
non-success exit) but would succeed on any later attempt, with every other
step succeeding.  Used to evaluate the attempt loop on a failing first
attempt. -/
def exampleRetrySteps : OrchestratorSteps :=
  { timeTravelBeforePr := fun _ => .ok ()
    generateSolution := fun attempt _ =>
      if attempt = 1 then .error (.runtimeError "Claude Code failed") else .ok exampleAgentSolution
    getPrSolutionStep := fun _ => .ok exampleSolution
    analyzeAndLearn := fun _ _ _ => .ok () }

/-- A concrete timestamp text for ledger writes. -/
def exampleTimestamp : String := "2024-03-01T00:00:00+00:00"

-- Helper lemmas about the embedded dict, sort and set operations.

theorem pyDictGet_dictInsert (d : List (String × String)) (k v f : String) :
    pyDictGet (dictInsert d k v) f = if k = f then some v else pyDictGet d f := by
  induction d with
  | nil =>
      by_cases h : k = f <;> simp [dictInsert, pyDictGet, h]
  | cons p rest ih =>
      obtain ⟨k2, v2⟩ := p
      by_cases hk : k2 = k
      · subst hk
        by_cases h : k2 = f <;> simp [dictInsert, pyDictGet, h]
      · by_cases h : k2 = f
        · subst h
          have hfk : ¬ (k2 = k) := hk
          have hkf : ¬ (k = k2) := fun hh => hk hh.symm
          simp [dictInsert, pyDictGet, hfk, hkf]
        · simp [dictInsert, pyDictGet, hk, h, ih]

theorem pyDictGet_eq_none_iff {α : Type} (d : List (String × α)) (f : String) :
    pyDictGet d f = none ↔ f ∉ d.map Prod.fst := by
  induction d with
  | nil => simp [pyDictGet]
  | cons p rest ih =>
      obtain ⟨k, v⟩ := p
      by_cases h : k = f
      · subst h
        simp [pyDictGet]
      · have h2 : ¬ (f = k) := fun hh => h hh.symm
        simp [pyDictGet, h, h2, ih]

theorem pyDictGet_some_of_mem_keys {α : Type} (d : List (String × α)) (f : String)
    (h : f ∈ d.map Prod.fst) :
    ∃ c, pyDictGet d f = some c ∧ (f, c) ∈ d := by
  induction d with
  | nil => simp at h
  | cons p rest ih =>
      obtain ⟨k, v⟩ := p
      by_cases hfk : k = f
      · subst hfk
        exact ⟨v, by simp [pyDictGet], by simp⟩
      · have h2 : ¬ (f = k) := fun hh => hfk hh.symm
        simp [h2] at h
        obtain ⟨c, hc, hmem⟩ := ih (by simpa using h)
        exact ⟨c, by simp [pyDictGet, hfk, hc], by simp [hmem]⟩

theorem mem_keys_of_pyDictGet_some {α : Type} (d : List (String × α)) (f : String)
    (c : α) (h : pyDictGet d f = some c) : f ∈ d.map Prod.fst := by
  by_contra hn
  rw [← pyDictGet_eq_none_iff] at hn
  rw [h] at hn
  cases hn

theorem mem_sortFilenames (l : List String) (f : String) :
    f ∈ sortFilenames l ↔ f ∈ l :=
  (List.perm_insertionSort _ l).mem_iff

theorem length_sortFilenames (l : List String) :
    (sortFilenames l).length = l.length :=
  (List.perm_insertionSort _ l).length_eq

theorem mem_createSolutionDiff_iff (udiff : String → String → String)
    (dev agent : Solution) (f : String) (e : FileDiffEntry) :
    (f, e) ∈ createSolutionDiff udiff dev agent ↔
      f ∈ (dev.files.map Prod.fst ++ agent.files.map Prod.fst).dedup ∧
      e = solutionFileDiff udiff dev agent f := by
  unfold createSolutionDiff
  rw [List.mem_map]
  constructor
  · rintro ⟨a, ha, heq⟩
    injection heq with h1 h2
    subst h1
    exact ⟨(mem_sortFilenames _ _).mp ha, h2.symm⟩
  · rintro ⟨hf, he⟩
    exact ⟨f, (mem_sortFilenames _ _).mpr hf, by rw [he]⟩

theorem pyDictGet_collectChangedFile (wc : String → Option String)
    (acc : List (String × String)) (fc : FileChange) (f : String) :
    pyDictGet (collectChangedFile wc acc fc) f =
      if (fc.filename = f ∧ (fc.status = "added" ∨ fc.status = "modified")) ∧
          (prTruthyContent wc f).isSome
        then prTruthyContent wc f
        else pyDictGet acc f := by
  unfold collectChangedFile getFileContent
  by_cases hS : fc.status = "added" ∨ fc.status = "modified"
  · rw [if_pos hS]
    by_cases hF : fc.filename = f
    · subst hF
      cases hw : wc fc.filename with
      | none =>
          have htr : prTruthyContent wc fc.filename = none := by
            simp [prTruthyContent, hw]
          simp [htr, hS]
      | some content =>
          by_cases hc : content = ""
          · subst hc
            have htr : prTruthyContent wc fc.filename = none := by
              simp [prTruthyContent, hw]
            simp [htr, hS]
          · have htr : prTruthyContent wc fc.filename = some content := by
              simp [prTruthyContent, hw, hc]
            simp [htr, hS, hc, pyDictGet_dictInsert]
    · cases hw : wc fc.filename with
      | none => simp [hF]
      | some content =>
          by_cases hc : content = ""
          · subst hc
            simp [hF]
          · simp [hc, pyDictGet_dictInsert, hF]
  · rw [if_neg hS]
    simp [hS]

theorem pyDictGet_getPrSolution_foldl (wc : String → Option String)
    (l : List FileChange) (acc : List (String × String)) (f : String) :
    pyDictGet (l.foldl (collectChangedFile wc) acc) f =
      if (∃ fc ∈ l, fc.filename = f ∧ (fc.status = "added" ∨ fc.status = "modified")) ∧
          (prTruthyContent wc f).isSome
        then prTruthyContent wc f
        else pyDictGet acc f := by
  induction l generalizing acc with
  | nil => simp
  | cons fc rest ih =>
      rw [List.foldl_cons, ih, pyDictGet_collectChangedFile]
      by_cases hsome : (prTruthyContent wc f).isSome
      · by_cases h2 : fc.filename = f ∧ (fc.status = "added" ∨ fc.status = "modified")
        · by_cases h1 : ∃ fc2 ∈ rest, fc2.filename = f ∧
              (fc2.status = "added" ∨ fc2.status = "modified")
          · simp [List.exists_mem_cons_iff, h1, h2, hsome]
          · simp [List.exists_mem_cons_iff, h1, h2, hsome]
        · by_cases h1 : ∃ fc2 ∈ rest, fc2.filename = f ∧
              (fc2.status = "added" ∨ fc2.status = "modified")
          · simp [List.exists_mem_cons_iff, h1, h2, hsome]
          · simp [List.exists_mem_cons_iff, h1, h2, hsome]
      · simp [List.exists_mem_cons_iff, hsome]

theorem pySet_ok_nodup (v : JVal) (A : List JVal) (h : pySet v = .ok A) : A.Nodup := by
  cases v with
  | arr xs =>
      by_cases hh : xs.all pyHashable
      · simp [pySet, hh] at h
        subst h
        exact List.nodup_dedup xs
      · simp [pySet, hh] at h
  | str s =>
      simp [pySet] at h
      subst h
      exact List.nodup_dedup _
  | obj fields =>
      simp [pySet] at h
      subst h
      exact List.nodup_dedup _
  | null => cases h
  | jbool b => cases h
  | num n => cases h

theorem loadAnalyzedPrs_ok_nodup (st : LedgerFile) (A : List JVal)
    (h : loadAnalyzedPrs st = .ok A) : A.Nodup := by
  cases st with
  | missing =>
      injection h with h
      subst h
      exact List.nodup_nil
  | unparsable =>
      injection h with h
      subst h
      exact List.nodup_nil
  | parsed j =>
      cases j with
      | obj fields => exact pySet_ok_nodup _ _ h
      | null => cases h
      | jbool b => cases h
      | num n => cases h
      | str s => cases h
      | arr xs => cases h

theorem pySorted_of_all_num (s : List JVal) (h : s.all jvalIsNum) :
    pySorted s = .ok (s.insertionSort (fun a b => jvalLe a b)) ∧
    (s.insertionSort (fun a b => jvalLe a b)).Perm s := by
  unfold pySorted
  rw [if_pos h]
  exact ⟨rfl, List.perm_insertionSort _ _⟩

theorem pySet_arr_of_nodup_num (xs : List JVal) (hnum : xs.all jvalIsNum)
    (hnd : xs.Nodup) : pySet (.arr xs) = .ok xs := by
  have hh : xs.all pyHashable := by
    rw [List.all_eq_true] at hnum ⊢
    intro v hv
    have := hnum v hv
    cases v <;> simp_all [jvalIsNum, pyHashable]
  simp [pySet, hh, List.dedup_eq_self.mpr hnd]

theorem loadAnalyzedPrs_written (xs : List JVal) (ts : String) :
    loadAnalyzedPrs (.parsed (.obj
      [("analyzed_prs", .arr xs), ("last_updated", .str ts)])) =
    pySet (.arr xs) := by
  have hne : ("last_updated" = "analyzed_prs") = False := by
    simp
  unfold loadAnalyzedPrs jsonObjGet
  simp [pyDictGet, hne]

theorem mem_pySetAdd_self (s : List JVal) (x : JVal) : x ∈ pySetAdd s x := by
  unfold pySetAdd
  by_cases h : x ∈ s
  · rw [if_pos h]
    exact h
  · rw [if_neg h]
    simp

theorem mem_pySetAdd_mono (s : List JVal) (x v : JVal) (h : v ∈ s) :
    v ∈ pySetAdd s x := by
  unfold pySetAdd
  by_cases hx : x ∈ s
  · rw [if_pos hx]
    exact h
  · rw [if_neg hx]
    simp [h]

theorem nodup_pySetAdd (s : List JVal) (x : JVal) (h : s.Nodup) :
    (pySetAdd s x).Nodup := by
  unfold pySetAdd
  by_cases hx : x ∈ s
  · rw [if_pos hx]
    exact h
  · rw [if_neg hx]
    rw [List.nodup_append]
    have hdisj : s.Disjoint [x] := by
      intro a ha hax
      rw [List.mem_singleton] at hax
      subst hax
      exact hx ha
    exact ⟨h, List.nodup_singleton x, hdisj⟩

theorem all_pySetAdd (s : List JVal) (x : JVal) (p : JVal → Bool)
    (hs : s.all p) (hx : p x) : (pySetAdd s x).all p := by
  unfold pySetAdd
  by_cases h : x ∈ s
  · rw [if_pos h]
    exact hs
  · rw [if_neg h]
    rw [List.all_append]
    simp [hs, hx]

theorem pySetAdd_eq_self_of_mem (s : List JVal) (x : JVal) (h : x ∈ s) :
    pySetAdd s x = s := by
  unfold pySetAdd
  rw [if_pos h]

-- Claim theorems.

/-- Claim C1 (code bug): the claim says a PR whose processing fails
mid-cycle is retried from the pre-fix checkout up to
`learning.max_attempts_per_pr` times and, on exhausting the budget, is
still recorded in the run as a Session with `success = false`.  The
attempt loop in `AutoImprovement._process_pr` has no exception handling,
so the first raising step propagates out of the loop and out of
`run_improvement_cycle`'s per-PR loop: with a budget of 3 and an agent
that raises only on attempt 1 (it would succeed on attempt 2), processing
evaluates to the propagated exception — no second attempt is made, no
failed Session is produced, and the run loop yields no run statistics at
all. -/
theorem processPr_failure_not_retried_not_recorded :
    exampleRetrySteps.generateSolution 2 examplePrOneFile = .ok exampleAgentSolution ∧
    processPr exampleRetrySteps 3 exampleTimestamp examplePrOneFile .missing =
      .error (.runtimeError "Claude Code failed") ∧
    runImprovementCycleLoop exampleRetrySteps 3 exampleTimestamp
      [examplePrOneFile] {} .missing =
      .error (.runtimeError "Claude Code failed") := by
  decide

/-- Claim C2, counterexample: for the two Solutions with disjoint filename
sets `{a.py}` (content empty) and `{}` (m = 1, n = 0), the comparison
report records `a.py` as identical — because `dict.get(filename, "")`
makes a file with empty content indistinguishable from an absent file —
contradicting the claim that every entry for disjoint Solutions is a
one-sided difference and none is identical. -/
theorem createSolutionDiff_disjoint_counterexample :
    (∀ f, f ∈ exampleEmptyContentSolution.files.map Prod.fst →
      f ∉ exampleEmptySolution.files.map Prod.fst) ∧
    exampleEmptyContentSolution.files.length = 1 ∧
    exampleEmptySolution.files.length = 0 ∧
    createSolutionDiff exampleUdiff exampleEmptyContentSolution exampleEmptySolution =
      [("a.py", FileDiffEntry.identical)] := by
  decide

/-- Claim C2 (amended): for two Solutions whose filename sets are disjoint
and all of whose file contents are non-empty, the comparison report
contains exactly m + n per-file entries and records none of them as
identical (each is a one-sided difference, rendered as a unified-diff
patch or as the minor-differences marker); a file whose content is the
empty string is instead reported as identical with its absence. -/
theorem createSolutionDiff_disjoint_report (udiff : String → String → String)
    (dev agent : Solution)
    (hnd1 : (dev.files.map Prod.fst).Nodup) (hnd2 : (agent.files.map Prod.fst).Nodup)
    (hdisj : ∀ f, f ∈ dev.files.map Prod.fst → f ∉ agent.files.map Prod.fst)
    (hne1 : ∀ p ∈ dev.files, p.2 ≠ "") (hne2 : ∀ p ∈ agent.files, p.2 ≠ "") :
    (createSolutionDiff udiff dev agent).length = dev.files.length + agent.files.length ∧
    ∀ f e, (f, e) ∈ createSolutionDiff udiff dev agent → e ≠ .identical := by
  have hnodup : ((dev.files.map Prod.fst) ++ (agent.files.map Prod.fst)).Nodup := by
    rw [List.nodup_append]
    exact ⟨hnd1, hnd2, hdisj⟩
  constructor
  · unfold createSolutionDiff
    rw [List.length_map, length_sortFilenames, List.dedup_eq_self.mpr hnodup,
      List.length_append, List.length_map, List.length_map]
  · intro f e he
    rw [mem_createSolutionDiff_iff] at he
    obtain ⟨hf, he2⟩ := he
    rw [List.mem_dedup, List.mem_append] at hf
    rcases hf with hf1 | hf2
    · obtain ⟨c, hc, hmem⟩ := pyDictGet_some_of_mem_keys dev.files f hf1
      have hcne : c ≠ "" := hne1 _ hmem
      have hg2 : pyDictGet agent.files f = none :=
        (pyDictGet_eq_none_iff _ _).mpr (hdisj f hf1)
      rw [he2]
      simp only [solutionFileDiff, hc, hg2, Option.getD_some, Option.getD_none]
      rw [if_neg hcne]
      split_ifs <;> simp
    · obtain ⟨c, hc, hmem⟩ := pyDictGet_some_of_mem_keys agent.files f hf2
      have hcne : c ≠ "" := hne2 _ hmem
      have hf1 : f ∉ dev.files.map Prod.fst := fun hin => hdisj f hin hf2
      have hg1 : pyDictGet dev.files f = none :=
        (pyDictGet_eq_none_iff _ _).mpr hf1
      rw [he2]
      have hcne2 : ¬ ("" = c) := fun hh => hcne hh.symm
      simp only [solutionFileDiff, hc, hg1, Option.getD_some, Option.getD_none]
      rw [if_neg hcne2]
      split_ifs <;> simp

/-- Witness for claim C2: the amended theorem applied to the concrete
disjoint Solutions `{a.py ↦ "x=1\n"}` and `{b.py ↦ "y=2\n"}`. -/
theorem createSolutionDiff_disjoint_report_witness :
    (createSolutionDiff exampleUdiff exampleSolution exampleAgentDisjoint).length =
      exampleSolution.files.length + exampleAgentDisjoint.files.length ∧
    ∀ f e, (f, e) ∈ createSolutionDiff exampleUdiff exampleSolution exampleAgentDisjoint →
      e ≠ .identical :=
  createSolutionDiff_disjoint_report exampleUdiff exampleSolution exampleAgentDisjoint
    (by decide) (by decide) (by decide) (by decide) (by decide)

/-- Claim C3: for every analyzed-id set loaded from the ledger, every
host-fetch behaviour, every issue-extraction behaviour and every shuffle
(constrained only to permute, as `random.shuffle` does), the PR list
selected for a run contains at most `limit` PRs and no PR whose number is
in the analyzed set. -/
theorem selectPrs_excludes_analyzed_within_limit (getMergedPrs : Nat → List PRInfo)
    (extractIssue : PRInfo → Option IssueInfo) (shuffle : List PRInfo → List PRInfo)
    (hshuffle : ∀ l, (shuffle l).Perm l) (limit : Nat) (analyzed_prs : List Int) :
    (selectPrs getMergedPrs extractIssue shuffle limit analyzed_prs).length ≤ limit ∧
    ∀ pr ∈ selectPrs getMergedPrs extractIssue shuffle limit analyzed_prs,
      pr.number ∉ analyzed_prs := by
  constructor
  · unfold selectPrs
    exact List.length_take_le _ _
  · intro pr hpr
    unfold selectPrs at hpr
    have h1 : pr ∈ shuffle (searchPrs getMergedPrs extractIssue limit analyzed_prs) :=
      List.mem_of_mem_take hpr
    have h2 : pr ∈ searchPrs getMergedPrs extractIssue limit analyzed_prs :=
      ((hshuffle _).mem_iff).mp h1
    unfold searchPrs at h2
    simp only [List.mem_filterMap] at h2
    obtain ⟨a, _, heq⟩ := h2
    by_cases hmem : a.number ∈ analyzed_prs
    · rw [if_pos hmem] at heq
      cases heq
    · rw [if_neg hmem] at heq
      cases hli : a.linked_issue with
      | some issue =>
          rw [hli] at heq
          injection heq with h
          rw [← h]
          exact hmem
      | none =>
          rw [hli] at heq
          cases hex : extractIssue a with
          | some issue2 =>
              rw [hex] at heq
              injection heq with h
              rw [← h]
              exact hmem
          | none =>
              rw [hex] at heq
              cases heq

/-- Witness for claim C3: selection over a fetch returning an
already-analyzed PR (number 5) and a fresh PR, with the identity shuffle
and limit 1. -/
theorem selectPrs_excludes_analyzed_within_limit_witness :
    (selectPrs (fun _ => [examplePrFive, examplePrOneFile]) (fun _ => none)
      (fun l => l) 1 [5]).length ≤ 1 ∧
    ∀ pr ∈ selectPrs (fun _ => [examplePrFive, examplePrOneFile]) (fun _ => none)
      (fun l => l) 1 [5], pr.number ∉ [5] :=
  selectPrs_excludes_analyzed_within_limit (fun _ => [examplePrFive, examplePrOneFile])
    (fun _ => none) (fun l => l) (fun l => List.Perm.refl l) 1 [5]

/-- Claim C4 (code bug): the claim says loading the analyzed set never
raises, returning the empty set for any malformed persisted content.  A
missing file and undecodable text do load as the empty set, but a file
whose text decodes to a JSON value that is not an object — here the array
`[1, 2, 3]` — makes `data.get("analyzed_prs", [])` raise
`AttributeError`, which the `except (json.JSONDecodeError, KeyError)`
handler does not catch. -/
theorem loadAnalyzedPrs_non_object_document_raises :
    loadAnalyzedPrs (.parsed (.arr [.num 1, .num 2, .num 3])) =
      .error .attributeError ∧
    loadAnalyzedPrs .missing = .ok [] ∧
    loadAnalyzedPrs .unparsable = .ok [] := by
  decide

/-- Claim C5: marking a PR id analyzed and then loading yields a set
containing that id; marking the same id a second time leaves the loaded
set unchanged in membership and cardinality; and no id present before the
mark is removed by it.  Stated for any prior ledger state whose load
succeeds with a set of integers (every state this system itself writes). -/
theorem markAnalyzed_load_monotone_idempotent (st : LedgerFile) (x : Int)
    (ts ts2 : String) (A : List JVal)
    (hload : loadAnalyzedPrs st = .ok A) (hnum : A.all jvalIsNum) :
    ∃ st1 A1, saveAnalyzedPr st x ts = .ok st1 ∧ loadAnalyzedPrs st1 = .ok A1 ∧
      JVal.num x ∈ A1 ∧ (∀ v ∈ A, v ∈ A1) ∧
      ∃ st2 A2, saveAnalyzedPr st1 x ts2 = .ok st2 ∧ loadAnalyzedPrs st2 = .ok A2 ∧
        (∀ v, v ∈ A2 ↔ v ∈ A1) ∧ A2.length = A1.length := by
  have hAnd := loadAnalyzedPrs_ok_nodup st A hload
  have haddnum : (pySetAdd A (.num x)).all jvalIsNum :=
    all_pySetAdd A _ _ hnum rfl
  have haddnd : (pySetAdd A (.num x)).Nodup := nodup_pySetAdd A _ hAnd
  obtain ⟨hsorted, hperm⟩ := pySorted_of_all_num _ haddnum
  set s1 := (pySetAdd A (.num x)).insertionSort (fun a b => jvalLe a b) with hs1def
  have hs1num : s1.all jvalIsNum := by
    rw [List.all_eq_true]
    intro v hv
    exact (List.all_eq_true.mp haddnum) v (hperm.mem_iff.mp hv)
  have hs1nd : s1.Nodup := hperm.symm.nodup haddnd
  have hsave1 : saveAnalyzedPr st x ts = .ok (.parsed (.obj
      [("analyzed_prs", .arr s1), ("last_updated", .str ts)])) := by
    unfold saveAnalyzedPr
    rw [hload]
    simp only [bind, Except.bind]
    rw [hsorted]
  have hA1load : loadAnalyzedPrs (.parsed (.obj
      [("analyzed_prs", .arr s1), ("last_updated", .str ts)])) = .ok s1 := by
    rw [loadAnalyzedPrs_written]
    exact pySet_arr_of_nodup_num s1 hs1num hs1nd
  have hx1 : JVal.num x ∈ s1 := hperm.mem_iff.mpr (mem_pySetAdd_self A _)
  refine ⟨_, s1, hsave1, hA1load, hx1, ?_, ?_⟩
  · intro v hv
    exact hperm.mem_iff.mpr (mem_pySetAdd_mono A _ v hv)
  · obtain ⟨hsorted2, hperm2⟩ := pySorted_of_all_num s1 hs1num
    set s2 := s1.insertionSort (fun a b => jvalLe a b) with hs2def
    have hs2num : s2.all jvalIsNum := by
      rw [List.all_eq_true]
      intro v hv
      exact (List.all_eq_true.mp hs1num) v (hperm2.mem_iff.mp hv)
    have hs2nd : s2.Nodup := hperm2.symm.nodup hs1nd
    have hsave2 : saveAnalyzedPr (.parsed (.obj
        [("analyzed_prs", .arr s1), ("last_updated", .str ts)])) x ts2 =
        .ok (.parsed (.obj
        [("analyzed_prs", .arr s2), ("last_updated", .str ts2)])) := by
      unfold saveAnalyzedPr
      rw [hA1load]
      simp only [bind, Except.bind]
      rw [pySetAdd_eq_self_of_mem s1 _ hx1, hsorted2]
    have hA2load : loadAnalyzedPrs (.parsed (.obj
        [("analyzed_prs", .arr s2), ("last_updated", .str ts2)])) = .ok s2 := by
      rw [loadAnalyzedPrs_written]
      exact pySet_arr_of_nodup_num s2 hs2num hs2nd
    exact ⟨_, s2, hsave2, hA2load, fun v => hperm2.mem_iff, hperm2.length_eq⟩

/-- Witness for claim C5: marking PR number 7 twice starting from a
missing ledger file. -/
theorem markAnalyzed_load_monotone_idempotent_witness :
    loadAnalyzedPrs .missing = .ok [] ∧
    ∃ st1 A1, saveAnalyzedPr .missing 7 exampleTimestamp = .ok st1 ∧
      loadAnalyzedPrs st1 = .ok A1 ∧ JVal.num 7 ∈ A1 ∧ (∀ v ∈ [], v ∈ A1) ∧
      ∃ st2 A2, saveAnalyzedPr st1 7 exampleTimestamp = .ok st2 ∧
        loadAnalyzedPrs st2 = .ok A2 ∧
        (∀ v, v ∈ A2 ↔ v ∈ A1) ∧ A2.length = A1.length :=
  ⟨rfl, markAnalyzed_load_monotone_idempotent .missing 7
    exampleTimestamp exampleTimestamp [] rfl rfl⟩

/-- Claim C6, counterexample: for a PR listing `a.py` as added and a
working copy where `a.py` exists at the merge commit with empty content,
the extracted Solution omits `a.py` entirely — the `if content:` guard
treats a present-but-empty file like a missing one — contradicting the
claim that every listed file present in the working copy is mapped to its
content. -/
theorem getPrSolution_present_empty_file_counterexample :
    exampleWcEmptyFile "a.py" = some "" ∧
    (∃ fc ∈ examplePrAdded.files_changed, fc.filename = "a.py" ∧
      (fc.status = "added" ∨ fc.status = "modified")) ∧
    (getPrSolution exampleWcEmptyFile examplePrAdded).files = [] := by
  decide

/-- Claim C6 (amended): the Solution extracted at the PR's merge commit
maps a path to a content exactly when the path is listed as added or
modified in the PR's file changes and the working copy at the merge
commit holds that path with that non-empty content; a listed path that is
absent — or present with empty content — is silently omitted, never an
error. -/
theorem getPrSolution_files_characterization (wc : String → Option String)
    (pr : PRInfo) (f c : String) :
    pyDictGet (getPrSolution wc pr).files f = some c ↔
      (∃ fc ∈ pr.files_changed, fc.filename = f ∧
        (fc.status = "added" ∨ fc.status = "modified")) ∧
      wc f = some c ∧ c ≠ "" := by
  unfold getPrSolution
  rw [pyDictGet_getPrSolution_foldl]
  constructor
  · intro h
    by_cases hcond : (∃ fc ∈ pr.files_changed, fc.filename = f ∧
        (fc.status = "added" ∨ fc.status = "modified")) ∧
        (prTruthyContent wc f).isSome
    · rw [if_pos hcond] at h
      refine ⟨hcond.1, ?_⟩
      unfold prTruthyContent at h
      cases hw : wc f with
      | none =>
          rw [hw] at h
          simp at h
      | some content =>
          rw [hw] at h
          by_cases hc : content = ""
          · subst hc
            simp at h
          · simp [hc] at h
            subst h
            exact ⟨rfl, hc⟩
    · rw [if_neg hcond] at h
      cases h
  · rintro ⟨hlisted, hwc, hc⟩
    have htr : prTruthyContent wc f = some c := by
      simp [prTruthyContent, hwc, hc]
    rw [if_pos ⟨hlisted, by rw [htr]; rfl⟩, htr]

/-- Witness for claim C6: the characterization applied to a working copy
holding `a.py = "x=2"` at the merge commit of a PR that lists `a.py` as
added (the spec's concrete ground-truth-extraction scenario). -/
theorem getPrSolution_files_characterization_witness :
    pyDictGet (getPrSolution exampleWc examplePrAdded).files "a.py" = some "x=2" :=
  (getPrSolution_files_characterization exampleWc examplePrAdded "a.py" "x=2").mpr
    (by decide)

/-- Claim C7: comparing any Solution against itself reports every file of
the Solution as identical and reports no file as differing, for any
rendering of the unified diff. -/
theorem createSolutionDiff_self_identical (udiff : String → String → String)
    (S : Solution) :
    (∀ f e, (f, e) ∈ createSolutionDiff udiff S S → e = .identical) ∧
    (∀ f ∈ S.files.map Prod.fst,
      (f, FileDiffEntry.identical) ∈ createSolutionDiff udiff S S) := by
  have hentry : ∀ f, solutionFileDiff udiff S S f = .identical := by
    intro f
    simp [solutionFileDiff]
  constructor
  · intro f e he
    rw [mem_createSolutionDiff_iff] at he
    rw [he.2, hentry]
  · intro f hf
    rw [mem_createSolutionDiff_iff]
    refine ⟨?_, (hentry f).symm⟩
    rw [List.mem_dedup, List.mem_append]
    exact Or.inl hf

/-- Witness for claim C7: the theorem instantiated at a concrete Solution
and diff rendering. -/
theorem createSolutionDiff_self_identical_witness :
    (∀ f e, (f, e) ∈ createSolutionDiff exampleUdiff exampleSolution exampleSolution →
      e = .identical) ∧
    (∀ f ∈ exampleSolution.files.map Prod.fst,
      (f, FileDiffEntry.identical) ∈
        createSolutionDiff exampleUdiff exampleSolution exampleSolution) :=
  createSolutionDiff_self_identical exampleUdiff exampleSolution

/-- Claim C8: a filename present in both Solutions with differing contents
is never recorded as identical; its entry is either a non-empty rendered
unified diff or, when the rendered diff is empty, the explicit
minor-differences marker. -/
theorem createSolutionDiff_common_difference_never_identical
    (udiff : String → String → String) (dev agent : Solution) (f cd ca : String)
    (hd : pyDictGet dev.files f = some cd) (ha : pyDictGet agent.files f = some ca)
    (hne : cd ≠ ca) :
    (∀ e, (f, e) ∈ createSolutionDiff udiff dev agent → e ≠ .identical) ∧
    ∃ e, (f, e) ∈ createSolutionDiff udiff dev agent ∧
      ((∃ d, e = .patch d ∧ d ≠ "") ∨ e = .minorDifferences) := by
  have hf1 : f ∈ dev.files.map Prod.fst := mem_keys_of_pyDictGet_some _ _ _ hd
  have hfd : f ∈ (dev.files.map Prod.fst ++ agent.files.map Prod.fst).dedup := by
    rw [List.mem_dedup, List.mem_append]
    exact Or.inl hf1
  have hentry : solutionFileDiff udiff dev agent f =
      (if udiff ca cd ≠ "" then .patch (udiff ca cd) else .minorDifferences) := by
    simp only [solutionFileDiff, hd, ha, Option.getD_some]
    rw [if_neg hne]
  constructor
  · intro e he
    rw [mem_createSolutionDiff_iff] at he
    rw [he.2, hentry]
    split_ifs <;> simp
  · refine ⟨solutionFileDiff udiff dev agent f, ?_, ?_⟩
    · rw [mem_createSolutionDiff_iff]
      exact ⟨hfd, rfl⟩
    · rw [hentry]
      split_ifs with h
      · exact Or.inl ⟨udiff ca cd, rfl, h⟩
      · exact Or.inr rfl

/-- Witness for claim C8: the theorem applied to the spec's concrete
scenario, `a.py = "x=1\n"` in the agent attempt versus `a.py = "x=2\n"`
in the developer Solution. -/
theorem createSolutionDiff_common_difference_never_identical_witness :
    (∀ e, (("a.py", e) ∈
        createSolutionDiff exampleUdiff exampleSolution exampleAgentSolution) →
      e ≠ .identical) ∧
    ∃ e, ("a.py", e) ∈ createSolutionDiff exampleUdiff exampleSolution exampleAgentSolution ∧
      ((∃ d, e = .patch d ∧ d ≠ "") ∨ e = .minorDifferences) :=
  createSolutionDiff_common_difference_never_identical exampleUdiff
    exampleSolution exampleAgentSolution "a.py" "x=1\n" "x=2\n"
    (by decide) (by decide) (by decide)

/-- Claim C9: for a PR that passes the linked-issue and label criteria,
criteria matching rejects it exactly when its file-change count is
strictly below `min_files_changed` or strictly above `max_files_changed`
— the bounds are inclusive. -/
theorem matchesCriteria_file_count_inclusive_bounds (pr : PRInfo)
    (criteria : PRSelectionCriteria)
    (hIssue : criteria.has_linked_issue = true → pr.linked_issue ≠ none)
    (hExclude : ¬ (criteria.exclude_labels ≠ [] ∧
      criteria.exclude_labels.any (fun label => pr.labels.contains label) = true))
    (hInclude : ¬ (criteria.include_labels ≠ [] ∧
      ¬ (criteria.include_labels.any (fun label => pr.labels.contains label) = true))) :
    matchesCriteria pr criteria = false ↔
      ((pr.files_changed.length : Int) < criteria.min_files_changed ∨
       (pr.files_changed.length : Int) > criteria.max_files_changed) := by
  by_cases h1 : (criteria.has_linked_issue : Prop) ∧ pr.linked_issue = none
  · exact absurd h1.2 (hIssue h1.1)
  · by_cases h2 : ((pr.files_changed.length : Int) < criteria.min_files_changed ∨
      (pr.files_changed.length : Int) > criteria.max_files_changed)
    · simp [matchesCriteria, h1, h2]
    · have htrue : matchesCriteria pr criteria = true := by
        unfold matchesCriteria
        rw [if_neg h1, if_neg h2, if_neg hExclude, if_neg hInclude]
      rw [htrue]
      simp [h2]

/-- Witness for claim C9: with `min_files_changed = 2` and
`max_files_changed = 5`, a PR with exactly 1 changed file is rejected
(via the theorem) and one with exactly 2 is accepted. -/
theorem matchesCriteria_file_count_inclusive_bounds_witness :
    matchesCriteria examplePrOneFile exampleCriteria = false ∧
    matchesCriteria examplePrTwoFiles exampleCriteria = true :=
  ⟨(matchesCriteria_file_count_inclusive_bounds examplePrOneFile exampleCriteria
      (by decide) (by decide) (by decide)).mpr (by decide),
   by decide⟩

/-- Claim C10, counterexample: the tag `"JIRA"` is a string other than
`"github_issues"`, `"jira"` and `"trac"`, yet validation does not convert
it to `None` and substitute the default `GitHubIssuesClient` — the
conversion lowercases the tag first and resolves it to `JiraClient`. -/
theorem issueTrackerConfig_unknown_tag_counterexample :
    ("JIRA" ≠ "github_issues" ∧ "JIRA" ≠ "jira" ∧ "JIRA" ≠ "trac") ∧
    (mkIssueTrackerConfig (.tag "JIRA")).client = some .jiraClient := by
  decide

/-- Claim C10 (amended): for every string tag whose lowercased form is not
one of `github_issues`, `jira`, `trac`, validation raises no error: the
unknown tag converts to `None` and the default `GitHubIssuesClient` is
silently substituted; and every constructed configuration has a non-`None`
issue-tracker client class. -/
theorem issueTrackerConfig_unknown_tag_defaults :
    (∀ s : String, pyLower s ≠ "github_issues" → pyLower s ≠ "jira" →
      pyLower s ≠ "trac" →
      (mkIssueTrackerConfig (.tag s)).client = some .githubIssuesClient) ∧
    (∀ v : IssueTrackerClientSpec, (mkIssueTrackerConfig v).client ≠ none) := by
  constructor
  · intro s h1 h2 h3
    simp [mkIssueTrackerConfig, convertIssueTrackerClient, setDefaultClient, h1, h2, h3]
  · intro v
    cases v with
    | clientClass c =>
        simp [mkIssueTrackerConfig, convertIssueTrackerClient, setDefaultClient]
    | tag s =>
        simp only [mkIssueTrackerConfig, convertIssueTrackerClient]
        split_ifs <;> simp [setDefaultClient]
    | nullValue =>
        simp [mkIssueTrackerConfig, convertIssueTrackerClient, setDefaultClient]

/-- Witness for claim C10: the unknown tag `"bogus"` yields the default
client, and the null client value yields a non-`None` client. -/
theorem issueTrackerConfig_unknown_tag_defaults_witness :
    (mkIssueTrackerConfig (.tag "bogus")).client = some .githubIssuesClient ∧
    (mkIssueTrackerConfig .nullValue).client ≠ none :=
  ⟨issueTrackerConfig_unknown_tag_defaults.1 "bogus" (by decide) (by decide) (by decide),
   issueTrackerConfig_unknown_tag_defaults.2 .nullValue⟩
